import Mathlib

/-!
# Verification of the seccomp BPF compiler and jailer error formatting

Shallow embedding of `src/seccomp/src/lib.rs` (the seccomp BPF compiler of
the firecracker repository) and of the `Display` implementation of the
jailer error type (`src/jailer/src/lib.rs`), together with theorems that
settle the specification claims about them.

Machine integers are modelled as `Nat` (or `Int` for the signed i64 syscall
numbers), with explicit `% 256` / `% 2^32` where the Rust source performs
`u8` / `u32` arithmetic whose wrap-around semantics could matter.  The
compilation target is x86-64 little-endian, matching the
`#[cfg(target_endian = "little")]` branch that the crate compiles on its
only supported architecture.
-/

namespace Seccomp

/-- BPF instruction record, wire-compatible with the kernel's
`struct sock_filter`: `code : u16`, `jt : u8`, `jf : u8`, `k : u32`. -/
structure sock_filter where
  code : Nat
  jt : Nat
  jf : Nat
  k : Nat
deriving DecidableEq, Repr

/-- Maximum number of instructions that a BPF program can have
(`BPF_MAX_LEN`). -/
def BPF_MAX_LEN : Nat := 4096

/-- BPF instruction class `BPF_LD`. -/
def BPF_LD : Nat := 0x00
/-- BPF instruction class `BPF_ALU`. -/
def BPF_ALU : Nat := 0x04
/-- BPF instruction class `BPF_JMP`. -/
def BPF_JMP : Nat := 0x05
/-- BPF instruction class `BPF_RET`. -/
def BPF_RET : Nat := 0x06

/-- BPF ld field `BPF_W`. -/
def BPF_W : Nat := 0x00
/-- BPF ld field `BPF_ABS`. -/
def BPF_ABS : Nat := 0x20

/-- BPF alu field `BPF_AND`. -/
def BPF_AND : Nat := 0x50

/-- BPF jmp field `BPF_JA`. -/
def BPF_JA : Nat := 0x00
/-- BPF jmp field `BPF_JEQ`. -/
def BPF_JEQ : Nat := 0x10
/-- BPF jmp field `BPF_JGT`. -/
def BPF_JGT : Nat := 0x20
/-- BPF jmp field `BPF_JGE`. -/
def BPF_JGE : Nat := 0x30
/-- BPF jmp field `BPF_K`. -/
def BPF_K : Nat := 0x00

/-- Seccomp return code `SECCOMP_RET_ALLOW`. -/
def SECCOMP_RET_ALLOW : Nat := 0x7fff0000
/-- Seccomp return code `SECCOMP_RET_ERRNO`. -/
def SECCOMP_RET_ERRNO : Nat := 0x00050000
/-- Seccomp return code `SECCOMP_RET_KILL`. -/
def SECCOMP_RET_KILL : Nat := 0x00000000
/-- Seccomp return code `SECCOMP_RET_LOG`. -/
def SECCOMP_RET_LOG : Nat := 0x7ffc0000
/-- Seccomp return code `SECCOMP_RET_TRACE`. -/
def SECCOMP_RET_TRACE : Nat := 0x7ff00000
/-- Seccomp return code `SECCOMP_RET_TRAP`. -/
def SECCOMP_RET_TRAP : Nat := 0x00030000
/-- Mask for the data payload of a seccomp return code. -/
def SECCOMP_RET_MASK : Nat := 0x0000ffff

/-- x86_64 audit architecture identifier
(`62 | 0x80000000 | 0x40000000 = 0xC000003E`). -/
def AUDIT_ARCH_X86_64 : Nat := 62 ||| 0x80000000 ||| 0x40000000

/-- Maximum index of a syscall argument (`ARG_NUMBER_MAX`). -/
def ARG_NUMBER_MAX : Nat := 5

/-- Maximum number of BPF statements a condition translates into
(`CONDITION_MAX_LEN`). -/
def CONDITION_MAX_LEN : Nat := 6

/-- Offset of the syscall number field in `struct seccomp_data`. -/
def SECCOMP_DATA_NR_OFFSET : Nat := 0
/-- Offset of the argument array in `struct seccomp_data`. -/
def SECCOMP_DATA_ARGS_OFFSET : Nat := 16
/-- Size in bytes of one syscall argument in `struct seccomp_data`. -/
def SECCOMP_DATA_ARG_SIZE : Nat := 8

/-- Seccomp compiler errors (`seccomp::Error`). -/
inductive Error where
  /-- The translated filter context exceeds the BPF program size limit. -/
  | ContextTooLarge : Error
  /-- An empty vector of rules was supplied for a syscall. -/
  | EmptyRulesVector : Error
  /-- An argument number exceeding the maximum was supplied. -/
  | InvalidArgumentNumber : Error
  /-- Loading the program into the kernel failed with the given errno. -/
  | Load : Int → Error
deriving DecidableEq, Repr

/-- Comparison operator of a condition (`SeccompCmpOp`). -/
inductive SeccompCmpOp where
  /-- Equal. -/
  | Eq : SeccompCmpOp
  /-- Greater than or equal. -/
  | Ge : SeccompCmpOp
  /-- Greater than. -/
  | Gt : SeccompCmpOp
  /-- Less than or equal. -/
  | Le : SeccompCmpOp
  /-- Less than. -/
  | Lt : SeccompCmpOp
  /-- Masked bits equal, carrying the `u64` mask. -/
  | MaskedEq : Nat → SeccompCmpOp
  /-- Not equal. -/
  | Ne : SeccompCmpOp
deriving DecidableEq, Repr

/-- Condition a syscall argument must match (`SeccompCondition`):
argument index (`u8`), comparison operator, and the `u64` value compared
against. -/
structure SeccompCondition where
  arg_number : Nat
  operator : SeccompCmpOp
  value : Nat
deriving DecidableEq, Repr

/-- Action `seccomp` applies to a process (`SeccompAction`). -/
inductive SeccompAction where
  /-- Allow the syscall. -/
  | Allow : SeccompAction
  /-- Return from the syscall with the given error number. -/
  | Errno : Nat → SeccompAction
  /-- Kill the calling process. -/
  | Kill : SeccompAction
  /-- Allow, but log the call. -/
  | Log : SeccompAction
  /-- Notify the tracing process with the given number. -/
  | Trace : Nat → SeccompAction
  /-- Send `SIGSYS` to the calling process. -/
  | Trap : SeccompAction
deriving DecidableEq, Repr

/-- Rule of a seccomp filter (`SeccompRule`): the conditions that must all
match, and the action applied on a match. -/
structure SeccompRule where
  conditions : List SeccompCondition
  action : SeccompAction
deriving DecidableEq, Repr

/-- Filter context (`SeccompFilterContext`).  The Rust source stores the
chains in a `HashMap<i64, (i64, Vec<SeccompRule>)>`; the map is modelled as
its entry list `(syscall_number, (priority, rules))` in the (arbitrary but
fixed) order in which the map iterates it. -/
structure SeccompFilterContext where
  rules : List (Int × Int × List SeccompRule)
  default_action : SeccompAction
deriving Repr

/-- `BPF_STMT` constructor macro: a statement has zero jump offsets. -/
def BPF_STMT (code : Nat) (k : Nat) : sock_filter :=
  { code := code, jt := 0, jf := 0, k := k }

/-- `BPF_JUMP` constructor macro. -/
def BPF_JUMP (code : Nat) (k : Nat) (jt : Nat) (jf : Nat) : sock_filter :=
  { code := code, jt := jt, jf := jf, k := k }

/-- The Rust `as u32` cast of an `i64`: the value's low 32 bits,
two's complement. -/
def i64_as_u32 (n : Int) : Nat := (n % (2 ^ 32)).toNat

/-- `SeccompCondition::new`: fails with `InvalidArgumentNumber` when the
argument index exceeds `ARG_NUMBER_MAX`. -/
def SeccompCondition.new (arg_number : Nat) (operator : SeccompCmpOp)
    (value : Nat) : Except Error SeccompCondition :=
  if arg_number > ARG_NUMBER_MAX then .error .InvalidArgumentNumber
  else .ok { arg_number := arg_number, operator := operator, value := value }

/-- `SeccompCondition::value_segments`: most significant half, least
significant half of the value, and the little-endian byte offsets of the
argument's most and least significant halves in `struct seccomp_data`. -/
def SeccompCondition.value_segments (c : SeccompCondition) :
    Nat × Nat × Nat × Nat :=
  let msb := (c.value >>> 32) % 2 ^ 32
  let lsb := c.value % 2 ^ 32
  let arg_offset := SECCOMP_DATA_ARGS_OFFSET + c.arg_number * SECCOMP_DATA_ARG_SIZE
  let msb_offset := arg_offset + SECCOMP_DATA_ARG_SIZE / 2
  let lsb_offset := arg_offset
  (msb, lsb, msb_offset, lsb_offset)

/-- `SeccompCondition::into_eq_bpf`.  `offset` is the `u8` jump offset to
the start of the next rule; `u8` additions are taken `% 256`. -/
def SeccompCondition.into_eq_bpf (c : SeccompCondition) (offset : Nat) :
    List sock_filter :=
  let (msb, lsb, msb_offset, lsb_offset) := c.value_segments
  [BPF_STMT (BPF_LD + BPF_W + BPF_ABS) msb_offset,
   BPF_JUMP (BPF_JMP + BPF_JEQ + BPF_K) msb 0 ((offset + 2) % 256),
   BPF_STMT (BPF_LD + BPF_W + BPF_ABS) lsb_offset,
   BPF_JUMP (BPF_JMP + BPF_JEQ + BPF_K) lsb 0 offset]

/-- `SeccompCondition::into_ge_bpf`. -/
def SeccompCondition.into_ge_bpf (c : SeccompCondition) (offset : Nat) :
    List sock_filter :=
  let (msb, lsb, msb_offset, lsb_offset) := c.value_segments
  [BPF_STMT (BPF_LD + BPF_W + BPF_ABS) msb_offset,
   BPF_JUMP (BPF_JMP + BPF_JGT + BPF_K) msb 3 0,
   BPF_JUMP (BPF_JMP + BPF_JEQ + BPF_K) msb 0 ((offset + 2) % 256),
   BPF_STMT (BPF_LD + BPF_W + BPF_ABS) lsb_offset,
   BPF_JUMP (BPF_JMP + BPF_JGE + BPF_K) lsb 0 offset]

/-- `SeccompCondition::into_gt_bpf`. -/
def SeccompCondition.into_gt_bpf (c : SeccompCondition) (offset : Nat) :
    List sock_filter :=
  let (msb, lsb, msb_offset, lsb_offset) := c.value_segments
  [BPF_STMT (BPF_LD + BPF_W + BPF_ABS) msb_offset,
   BPF_JUMP (BPF_JMP + BPF_JGT + BPF_K) msb 3 0,
   BPF_JUMP (BPF_JMP + BPF_JEQ + BPF_K) msb 0 ((offset + 2) % 256),
   BPF_STMT (BPF_LD + BPF_W + BPF_ABS) lsb_offset,
   BPF_JUMP (BPF_JMP + BPF_JGT + BPF_K) lsb 0 offset]

/-- `SeccompCondition::into_le_bpf`. -/
def SeccompCondition.into_le_bpf (c : SeccompCondition) (offset : Nat) :
    List sock_filter :=
  let (msb, lsb, msb_offset, lsb_offset) := c.value_segments
  [BPF_STMT (BPF_LD + BPF_W + BPF_ABS) msb_offset,
   BPF_JUMP (BPF_JMP + BPF_JGT + BPF_K) msb ((offset + 3) % 256) 0,
   BPF_JUMP (BPF_JMP + BPF_JEQ + BPF_K) msb 0 2,
   BPF_STMT (BPF_LD + BPF_W + BPF_ABS) lsb_offset,
   BPF_JUMP (BPF_JMP + BPF_JGT + BPF_K) lsb offset 0]

/-- `SeccompCondition::into_lt_bpf`. -/
def SeccompCondition.into_lt_bpf (c : SeccompCondition) (offset : Nat) :
    List sock_filter :=
  let (msb, lsb, msb_offset, lsb_offset) := c.value_segments
  [BPF_STMT (BPF_LD + BPF_W + BPF_ABS) msb_offset,
   BPF_JUMP (BPF_JMP + BPF_JGT + BPF_K) msb ((offset + 3) % 256) 0,
   BPF_JUMP (BPF_JMP + BPF_JEQ + BPF_K) msb 0 2,
   BPF_STMT (BPF_LD + BPF_W + BPF_ABS) lsb_offset,
   BPF_JUMP (BPF_JMP + BPF_JGE + BPF_K) lsb offset 0]

/-- `SeccompCondition::into_masked_eq_bpf`. -/
def SeccompCondition.into_masked_eq_bpf (c : SeccompCondition) (offset : Nat)
    (mask : Nat) : List sock_filter :=
  let (_, _, msb_offset, lsb_offset) := c.value_segments
  let masked_value := c.value &&& mask
  let msb := (masked_value >>> 32) % 2 ^ 32
  let lsb := masked_value % 2 ^ 32
  let mask_msb := (mask >>> 32) % 2 ^ 32
  let mask_lsb := mask % 2 ^ 32
  [BPF_STMT (BPF_LD + BPF_W + BPF_ABS) msb_offset,
   BPF_STMT (BPF_ALU + BPF_AND + BPF_K) mask_msb,
   BPF_JUMP (BPF_JMP + BPF_JEQ + BPF_K) msb 0 ((offset + 3) % 256),
   BPF_STMT (BPF_LD + BPF_W + BPF_ABS) lsb_offset,
   BPF_STMT (BPF_ALU + BPF_AND + BPF_K) mask_lsb,
   BPF_JUMP (BPF_JMP + BPF_JEQ + BPF_K) lsb 0 offset]

/-- `SeccompCondition::into_ne_bpf`. -/
def SeccompCondition.into_ne_bpf (c : SeccompCondition) (offset : Nat) :
    List sock_filter :=
  let (msb, lsb, msb_offset, lsb_offset) := c.value_segments
  [BPF_STMT (BPF_LD + BPF_W + BPF_ABS) msb_offset,
   BPF_JUMP (BPF_JMP + BPF_JEQ + BPF_K) msb 0 2,
   BPF_STMT (BPF_LD + BPF_W + BPF_ABS) lsb_offset,
   BPF_JUMP (BPF_JMP + BPF_JEQ + BPF_K) lsb offset 0]

/-- `SeccompCondition::into_bpf`: dispatches on the operator.  The source
additionally asserts `result.len() <= CONDITION_MAX_LEN`, proved below. -/
def SeccompCondition.into_bpf (c : SeccompCondition) (offset : Nat) :
    List sock_filter :=
  match c.operator with
  | .Eq => c.into_eq_bpf offset
  | .Ge => c.into_ge_bpf offset
  | .Gt => c.into_gt_bpf offset
  | .Le => c.into_le_bpf offset
  | .Lt => c.into_lt_bpf offset
  | .MaskedEq mask => c.into_masked_eq_bpf offset mask
  | .Ne => c.into_ne_bpf offset

/-- `u32::from(action)`: the BPF return code of each action. -/
def SeccompAction.into_u32 : SeccompAction → Nat
  | .Allow => SECCOMP_RET_ALLOW
  | .Errno x => SECCOMP_RET_ERRNO ||| (x &&& SECCOMP_RET_MASK)
  | .Kill => SECCOMP_RET_KILL
  | .Log => SECCOMP_RET_LOG
  | .Trace x => SECCOMP_RET_TRACE ||| (x &&& SECCOMP_RET_MASK)
  | .Trap => SECCOMP_RET_TRAP

/-- `SeccompRule::new`. -/
def SeccompRule.new (conditions : List SeccompCondition)
    (action : SeccompAction) : SeccompRule :=
  { conditions := conditions, action := action }

/-- `SeccompRule::append_condition`: appends one condition's BPF fragment
to the accumulator, updating the rule length and the `u8` running offset to
the next rule.  When prepending the condition could produce an unjumpable
offset (`offset + CONDITION_MAX_LEN + 1 > u8::MAX` in `u16` arithmetic),
three helper jumps are pushed first and the offset is reset to 1. -/
def SeccompRule.append_condition (condition : SeccompCondition)
    (accumulator : List (List sock_filter)) (rule_len : Nat) (offset : Nat) :
    List (List sock_filter) × Nat × Nat :=
  let (accumulator, rule_len, offset) :=
    if offset + CONDITION_MAX_LEN + 1 > 255 then
      let helper_jumps :=
        [BPF_STMT (BPF_JMP + BPF_JA) 2,
         BPF_STMT (BPF_JMP + BPF_JA) (offset + 1),
         BPF_STMT (BPF_JMP + BPF_JA) (offset + 1)]
      (accumulator ++ [helper_jumps], rule_len + helper_jumps.length, 1)
    else (accumulator, rule_len, offset)
  let condition := condition.into_bpf offset
  (accumulator ++ [condition], rule_len + condition.length,
   (offset + condition.length) % 256)

/-- `SeccompRule::into_bpf`: the rule is built backwards into an
accumulator of slices (action first, then each condition's fragment, then
the two entry jumps) and flattened in reverse push order. -/
def SeccompRule.into_bpf (rule : SeccompRule) : List sock_filter :=
  let accumulator := [[BPF_STMT (BPF_RET + BPF_K) rule.action.into_u32]]
  let state := rule.conditions.foldl
    (fun (s : List (List sock_filter) × Nat × Nat) condition =>
      SeccompRule.append_condition condition s.1 s.2.1 s.2.2)
    (accumulator, 1, 1)
  let rule_jumps :=
    [BPF_STMT (BPF_JMP + BPF_JA) 1,
     BPF_STMT (BPF_JMP + BPF_JA) (state.2.2 + 1)]
  ((state.1 ++ [rule_jumps]).reverse).flatten

/-- `SeccompFilterContext::new`: every syscall must come with at least one
rule, otherwise the produced BPF code would break. -/
def SeccompFilterContext.new (rules : List (Int × Int × List SeccompRule))
    (default_action : SeccompAction) : Except Error SeccompFilterContext :=
  if rules.any (fun value => value.2.2.length == 0) then
    .error .EmptyRulesVector
  else
    .ok { rules := rules, default_action := default_action }

/-- Entry update of `SeccompFilterContext::add_rules`:
`entry(syscall_number).or_insert_with(|| (default_priority.unwrap_or(0), vec![])).1.append(rules)`
on the entry list of the map. -/
def add_rules_entry (syscall_number : Int) (default_priority : Option Int)
    (rules : List SeccompRule) :
    List (Int × Int × List SeccompRule) → List (Int × Int × List SeccompRule)
  | [] => [(syscall_number, default_priority.getD 0, rules)]
  | e :: t =>
    if e.1 = syscall_number then (e.1, e.2.1, e.2.2 ++ rules) :: t
    else e :: add_rules_entry syscall_number default_priority rules t

/-- `SeccompFilterContext::add_rules`: takes `&mut self` in the source, so
it is modelled as returning the outcome together with the (possibly
updated) context.  An empty rules vector is rejected before any mutation. -/
def SeccompFilterContext.add_rules (ctx : SeccompFilterContext)
    (syscall_number : Int) (default_priority : Option Int)
    (rules : List SeccompRule) :
    Except Error Unit × SeccompFilterContext :=
  if rules.length == 0 then (.error .EmptyRulesVector, ctx)
  else
    (.ok (),
     { ctx with
       rules := add_rules_entry syscall_number default_priority rules ctx.rules })

/-- `SeccompFilterContext::append_syscall_chain`: translates one syscall's
rule chain (syscall-number guard, rule fragments, default action), appends
it to the accumulator, and fails with `ContextTooLarge` once the running
length reaches `BPF_MAX_LEN`. -/
def SeccompFilterContext.append_syscall_chain (syscall_number : Int)
    (chain : List SeccompRule) (default_action : Nat)
    (accumulator : List (List sock_filter)) (context_len : Nat) :
    Except Error (List (List sock_filter) × Nat) :=
  let chain := chain.map SeccompRule.into_bpf
  let chain_len := (chain.map List.length).foldl (· + ·) 0
  let built_syscall :=
    [BPF_JUMP (BPF_JMP + BPF_JEQ + BPF_K) (i64_as_u32 syscall_number) 0 1]
      ++ chain.flatten
      ++ [BPF_STMT (BPF_RET + BPF_K) default_action]
  let _ := chain_len
  let context_len := context_len + built_syscall.length
  let accumulator := accumulator ++ [built_syscall]
  if context_len ≥ BPF_MAX_LEN then .error .ContextTooLarge
  else .ok (accumulator, context_len)

/-- One step of the stable sort of `SeccompFilterContext::into_bpf`:
inserts an entry into a list already sorted by descending priority
(`(a.1).0.cmp(&(b.1).0).reverse()`), keeping it after entries of greater or
equal priority. -/
def insert_by_priority (e : Int × Int × List SeccompRule) :
    List (Int × Int × List SeccompRule) → List (Int × Int × List SeccompRule)
  | [] => [e]
  | x :: t =>
    if e.2.1 ≤ x.2.1 then x :: insert_by_priority e t else e :: x :: t

/-- The sort of `SeccompFilterContext::into_bpf`: orders the map's entries
by descending priority (the relative order of equal priorities is
unspecified in the source, which sorts an arbitrarily ordered `HashMap`
iteration). -/
def sort_by_priority (l : List (Int × Int × List SeccompRule)) :
    List (Int × Int × List SeccompRule) :=
  l.foldr insert_by_priority []

/-- `SeccompFilterContext::into_bpf`: loads the syscall number, appends
each syscall chain in descending priority order, appends the default
action once more, and flattens the accumulator. -/
def SeccompFilterContext.into_bpf (ctx : SeccompFilterContext) :
    Except Error (List sock_filter) := do
  let accumulator :=
    [[BPF_STMT (BPF_LD + BPF_W + BPF_ABS) SECCOMP_DATA_NR_OFFSET]]
  let context_len := 1
  let sorted := sort_by_priority ctx.rules
  let default_action := ctx.default_action.into_u32
  let state ← sorted.foldlM
    (fun (s : List (List sock_filter) × Nat) entry =>
      SeccompFilterContext.append_syscall_chain entry.1 entry.2.2
        default_action s.1 s.2)
    (accumulator, context_len)
  let accumulator := state.1 ++ [[BPF_STMT (BPF_RET + BPF_K) default_action]]
  .ok accumulator.flatten

/-- Filtering level passed to `setup_seccomp` (`SeccompLevel`). -/
inductive SeccompLevel where
  /-- Filtering by syscall number and argument values. -/
  | Advanced : SeccompFilterContext → SeccompLevel
  /-- Filtering by syscall number only, with the list of allowed numbers. -/
  | Basic : List Int → SeccompLevel
  /-- No filtering. -/
  | NoFilter : SeccompLevel

/-- `VALIDATE_ARCHITECTURE()`: load the `arch` field of `seccomp_data`,
compare against the x86-64 audit identifier, kill on mismatch. -/
def VALIDATE_ARCHITECTURE : List sock_filter :=
  [BPF_STMT (BPF_LD + BPF_W + BPF_ABS) 4,
   BPF_JUMP (BPF_JMP + BPF_JEQ + BPF_K) AUDIT_ARCH_X86_64 1 0,
   BPF_STMT (BPF_RET + BPF_K) SECCOMP_RET_KILL]

/-- `EXAMINE_SYSCALL()`: load the syscall number. -/
def EXAMINE_SYSCALL : List sock_filter :=
  [BPF_STMT (BPF_LD + BPF_W + BPF_ABS) 0]

/-- `ALLOW_SYSCALL(syscall_number)`: return `ALLOW` when the loaded number
matches. -/
def ALLOW_SYSCALL (syscall_number : Int) : List sock_filter :=
  [BPF_JUMP (BPF_JMP + BPF_JEQ + BPF_K) (i64_as_u32 syscall_number) 0 1,
   BPF_STMT (BPF_RET + BPF_K) SECCOMP_RET_ALLOW]

/-- `SIGNAL_PROCESS()`: return `TRAP`. -/
def SIGNAL_PROCESS : List sock_filter :=
  [BPF_STMT (BPF_RET + BPF_K) SECCOMP_RET_TRAP]

/-- The `EINVAL` errno used by `setup_seccomp` for compile failures. -/
def EINVAL : Int := 22

/-- The pure part of `setup_seccomp`: the filter program built for each
level.  `NoFilter` returns before building and installing anything
(`none`); the subsequent `prctl` installation calls are kernel I/O and are
not modelled. -/
def setup_seccomp (level : SeccompLevel) :
    Except Error (Option (List sock_filter)) :=
  match level with
  | .Advanced context =>
    match context.into_bpf with
    | .error _ => .error (.Load EINVAL)
    | .ok prog => .ok (some (VALIDATE_ARCHITECTURE ++ prog))
  | .Basic allowed_syscalls =>
    .ok (some (VALIDATE_ARCHITECTURE ++ EXAMINE_SYSCALL
      ++ allowed_syscalls.flatMap ALLOW_SYSCALL ++ SIGNAL_PROCESS))
  | .NoFilter => .ok none

end Seccomp

namespace Jailer

/-- A jailer `std::io::Error` as it appears in error formatting: the
operating system errno together with the text its `Display` produces
(`strerror` message followed by the os-error suffix, e.g.
`No such file or directory (os error 2)`).  The text is produced by the
Rust standard library, outside this repository. -/
structure IoError where
  errno : Nat
  text : String
deriving DecidableEq, Repr

/-- The `ENOENT` I/O error with the standard library's display text. -/
def ENOENT : IoError :=
  { errno := 2, text := "No such file or directory (os error 2)" }

/-- `Debug` formatting of a `PathBuf`: the path wrapped in double quotes
(no character of the claimed inputs needs escaping). -/
def pathDebug (p : String) : String := "\x22" ++ p ++ "\x22"

/-- The jailer error kinds exercised by the claims (`jailer::Error`;
the full enum has ~50 kinds, of which the claims name three). -/
inductive Error where
  /-- Canonicalizing a path failed with an I/O error. -/
  | Canonicalize : String → IoError → Error
  /-- The `/dev/kvm` file descriptor came back with an unexpected value. -/
  | UnexpectedKvmFd : Int → Error
  /-- A required command-line argument is missing. -/
  | MissingArgument : String → Error
deriving DecidableEq, Repr

/-- Rust's `str::replace` of the one-character pattern `\"` by the empty
string: every double-quote character of the string is removed. -/
def replaceQuoteByEmpty (s : String) : String :=
  String.mk (s.data.filter (fun c => c ≠ '\x22'))

/-- The `fmt::Display` implementation of `jailer::Error`, for the claimed
kinds.  `Canonicalize` formats the path with the Debug formatter and then
strips every double quote. -/
def Error.display : Error → String
  | .Canonicalize path io_err =>
    replaceQuoteByEmpty
      ("Failed to canonicalize path " ++ pathDebug path ++ ": " ++ io_err.text)
  | .UnexpectedKvmFd fd =>
    "Unexpected value for the /dev/kvm fd: " ++ toString fd
  | .MissingArgument arg =>
    "Missing argument: " ++ arg

end Jailer

namespace Seccomp

instance {e a : Type} [DecidableEq e] [DecidableEq a] : DecidableEq (Except e a)
  | .ok x, .ok y =>
    match decEq x y with
    | isTrue h => isTrue (by rw [h])
    | isFalse h => isFalse (fun hh => h (Except.ok.inj hh))
  | .ok _, .error _ => isFalse (fun hh => Except.noConfusion hh)
  | .error _, .ok _ => isFalse (fun hh => Except.noConfusion hh)
  | .error x, .error y =>
    match decEq x y with
    | isTrue h => isTrue (by rw [h])
    | isFalse h => isFalse (fun hh => h (Except.error.inj hh))

/-- Number of BPF statements each comparison operator's fragment emits. -/
def cond_len : SeccompCmpOp → Nat
  | .Eq => 4
  | .Ge => 5
  | .Gt => 5
  | .Le => 5
  | .Lt => 5
  | .MaskedEq _ => 6
  | .Ne => 4

/-- The three helper jumps `append_condition` inserts before a condition
when the running offset is about to leave the 8-bit jump range: continue
the condition chain, jump to the next rule, jump out of the rule chain. -/
def helper_block (offset : Nat) : List sock_filter :=
  [BPF_STMT (BPF_JMP + BPF_JA) 2,
   BPF_STMT (BPF_JMP + BPF_JA) (offset + 1),
   BPF_STMT (BPF_JMP + BPF_JA) (offset + 1)]

/-- Reference form of the condition loop of `SeccompRule::into_bpf`: walks
the conditions front to back with the running offset to the next rule,
producing the pushed slices in push order together with the final offset.
The helper block is inserted, and the offset reset to 1, exactly when the
running offset is at least 249 (equivalently
`offset + CONDITION_MAX_LEN + 1 > 255`), independently of the operator of
the condition about to be emitted. -/
def rule_pieces : List SeccompCondition → Nat → List (List sock_filter) × Nat
  | [], offset => ([], offset)
  | c :: cs, offset =>
    if 249 ≤ offset then
      let frag := c.into_bpf 1
      let r := rule_pieces cs (1 + frag.length)
      (helper_block offset :: frag :: r.1, r.2)
    else
      let frag := c.into_bpf offset
      let r := rule_pieces cs (offset + frag.length)
      (frag :: r.1, r.2)

/-- The largest jump offset occurring in the fragment an operator emits at
a given running offset (reading the fragment shapes of
`SeccompCondition::into_*_bpf` in unbounded arithmetic). -/
def max_frag_jump (op : SeccompCmpOp) (offset : Nat) : Nat :=
  match op with
  | .Eq => offset + 2
  | .Ge => max (offset + 2) 3
  | .Gt => max (offset + 2) 3
  | .Le => offset + 3
  | .Lt => offset + 3
  | .MaskedEq _ => offset + 3
  | .Ne => max offset 2

/-- The claim's version of `append_condition`: the helper block is
inserted exactly when the condition's own emitted fragment would require a
jump offset of 256 or more. -/
def append_condition_claim (condition : SeccompCondition)
    (accumulator : List (List sock_filter)) (rule_len : Nat) (offset : Nat) :
    List (List sock_filter) × Nat × Nat :=
  let (accumulator, rule_len, offset) :=
    if 256 ≤ max_frag_jump condition.operator offset then
      (accumulator ++ [helper_block offset], rule_len + 3, 1)
    else (accumulator, rule_len, offset)
  let condition := condition.into_bpf offset
  (accumulator ++ [condition], rule_len + condition.length,
   offset + condition.length)

/-- `SeccompRule::into_bpf` with the claim's helper-insertion criterion
substituted for the source's. -/
def rule_into_bpf_claim (rule : SeccompRule) : List sock_filter :=
  let accumulator := [[BPF_STMT (BPF_RET + BPF_K) rule.action.into_u32]]
  let state := rule.conditions.foldl
    (fun (s : List (List sock_filter) × Nat × Nat) condition =>
      append_condition_claim condition s.1 s.2.1 s.2.2)
    (accumulator, 1, 1)
  let rule_jumps :=
    [BPF_STMT (BPF_JMP + BPF_JA) 1,
     BPF_STMT (BPF_JMP + BPF_JA) (state.2.2 + 1)]
  ((state.1 ++ [rule_jumps]).reverse).flatten

/-- The BPF slice `append_syscall_chain` builds for one syscall entry
`(syscall_number, (priority, rules))` of the map: number guard, rule
fragments, default action. -/
def build_chain (default_action : Nat) (e : Int × Int × List SeccompRule) :
    List sock_filter :=
  BPF_JUMP (BPF_JMP + BPF_JEQ + BPF_K) (i64_as_u32 e.1) 0 1 ::
    (e.2.2.map SeccompRule.into_bpf).flatten
    ++ [BPF_STMT (BPF_RET + BPF_K) default_action]

/-- Total length of the chains built for a list of map entries. -/
def chains_len (default_action : Nat)
    (l : List (Int × Int × List SeccompRule)) : Nat :=
  (l.map (fun e => (build_chain default_action e).length)).sum

/-- The length of the program a context compiles to (when it compiles):
the syscall-number load, the syscall chains, and the final default
action. -/
def compiled_len (ctx : SeccompFilterContext) : Nat :=
  2 + chains_len ctx.default_action.into_u32 ctx.rules

/-- A rule with no conditions and action `Allow`. -/
def exRuleEmpty : SeccompRule := SeccompRule.new [] .Allow

/-- A rule of 63 equality conditions on argument 0: the running offset
reaches 249 right before the 63rd condition is emitted. -/
def exRule63 : SeccompRule :=
  SeccompRule.new
    (List.replicate 63 { arg_number := 0, operator := .Eq, value := 0 }) .Allow

/-- A small filter context: syscall 1, priority 0, one unconditional allow
rule, default action `Trap`. -/
def exCtx : SeccompFilterContext :=
  { rules := [(1, 0, [exRuleEmpty])], default_action := .Trap }

/-- The program `exCtx` compiles to. -/
def exProg : List sock_filter :=
  [{ code := 32, jt := 0, jf := 0, k := 0 },
   { code := 21, jt := 0, jf := 1, k := 1 },
   { code := 5, jt := 0, jf := 0, k := 1 },
   { code := 5, jt := 0, jf := 0, k := 2 },
   { code := 6, jt := 0, jf := 0, k := 0x7fff0000 },
   { code := 6, jt := 0, jf := 0, k := 0x00030000 },
   { code := 6, jt := 0, jf := 0, k := 0x00030000 }]

/-- A context whose compiled length exceeds the BPF program ceiling:
one syscall chain of 1365 unconditional rules (3 instructions each), for a
compiled length of `2 + 1 + 3 * 1365 + 1 = 4099 > 4096`. -/
def exCtxTooLarge : SeccompFilterContext :=
  { rules := [(0, 0, List.replicate 1365 exRuleEmpty)],
    default_action := .Trap }

/-- Jump safety of one instruction sitting at position `pos` of a region
whose jump targets must stay `≤ m`: an unconditional jump
(`BPF_JMP + BPF_JA = 5`) has `k ≤ 255` and targets `pos + 1 + k ≤ m`; a
conditional jump (`BPF_JMP + BPF_JEQ/BPF_JGT/BPF_JGE = 21/37/53`) has
`jt, jf ≤ 255` with both targets bounded the same way. -/
def instrOk (m pos : Nat) (ins : sock_filter) : Prop :=
  (ins.code = 5 → ins.k ≤ 255 ∧ pos + 1 + ins.k ≤ m) ∧
  ((ins.code = 21 ∨ ins.code = 37 ∨ ins.code = 53) →
    ins.jt ≤ 255 ∧ ins.jf ≤ 255 ∧ pos + 1 + ins.jt ≤ m ∧ pos + 1 + ins.jf ≤ m)

/-- All jump targets of the region `l`, laid out starting at absolute
position `base`, are bounded by `m`. -/
def jumpsOk (base : Nat) (l : List sock_filter) (m : Nat) : Prop :=
  ∀ idx ins, l[idx]? = some ins → instrOk m (base + idx) ins

lemma cond_into_bpf_length (c : SeccompCondition) (offset : Nat) :
    (c.into_bpf offset).length = cond_len c.operator := by
  obtain ⟨a, op, v⟩ := c
  cases op <;> rfl

lemma cond_len_le_six (op : SeccompCmpOp) : cond_len op ≤ 6 := by
  cases op <;> simp [cond_len]

lemma cond_len_pos (op : SeccompCmpOp) : 1 ≤ cond_len op := by
  cases op <;> simp [cond_len]

lemma jumpsOk_nil (base m : Nat) : jumpsOk base [] m := by
  intro idx ins h
  simp at h

lemma instrOk_mono {m m' pos : Nat} {ins : sock_filter} (hm : m ≤ m')
    (h : instrOk m pos ins) : instrOk m' pos ins := by
  obtain ⟨ha, hb⟩ := h
  refine ⟨fun hc => ⟨(ha hc).1, le_trans (ha hc).2 hm⟩, fun hc => ?_⟩
  obtain ⟨h1, h2, h3, h4⟩ := hb hc
  exact ⟨h1, h2, le_trans h3 hm, le_trans h4 hm⟩

lemma instrOk_shift {m pos : Nat} {ins : sock_filter} (d : Nat)
    (h : instrOk m pos ins) : instrOk (d + m) (d + pos) ins := by
  obtain ⟨ha, hb⟩ := h
  refine ⟨fun hc => ⟨(ha hc).1, by have := (ha hc).2; omega⟩, fun hc => ?_⟩
  obtain ⟨h1, h2, h3, h4⟩ := hb hc
  exact ⟨h1, h2, by omega, by omega⟩

lemma jumpsOk_mono {base m m' : Nat} {l : List sock_filter} (hm : m ≤ m')
    (h : jumpsOk base l m) : jumpsOk base l m' :=
  fun idx ins hi => instrOk_mono hm (h idx ins hi)

lemma jumpsOk_shift {base m : Nat} {l : List sock_filter} (d : Nat)
    (h : jumpsOk base l m) : jumpsOk (d + base) l (d + m) := by
  intro idx ins hi
  have := instrOk_shift d (h idx ins hi)
  simpa [Nat.add_assoc] using this

lemma jumpsOk_cons {base m : Nat} {x : sock_filter} {l : List sock_filter} :
    jumpsOk base (x :: l) m ↔ instrOk m base x ∧ jumpsOk (base + 1) l m := by
  constructor
  · intro h
    refine ⟨by simpa using h 0 x (by simp), fun idx ins hi => ?_⟩
    have := h (idx + 1) ins (by simpa using hi)
    simpa [show base + (idx + 1) = base + 1 + idx by omega] using this
  · rintro ⟨h0, h⟩ idx ins hi
    cases idx with
    | zero =>
      simp at hi
      simpa [hi] using h0
    | succ n =>
      have := h n ins (by simpa using hi)
      simpa [show base + 1 + n = base + (n + 1) by omega] using this

lemma jumpsOk_append {base m : Nat} {a b : List sock_filter} :
    jumpsOk base (a ++ b) m ↔
      jumpsOk base a m ∧ jumpsOk (base + a.length) b m := by
  induction a generalizing base with
  | nil => simp [jumpsOk_nil]
  | cons x t ih =>
    simp only [List.cons_append, jumpsOk_cons, ih, List.length_cons]
    constructor
    · rintro ⟨h0, h1, h2⟩
      exact ⟨⟨h0, h1⟩, by simpa [show base + (t.length + 1) = base + 1 + t.length by omega] using h2⟩
    · rintro ⟨⟨h0, h1⟩, h2⟩
      exact ⟨h0, h1, by simpa [show base + 1 + t.length = base + (t.length + 1) by omega] using h2⟩

lemma frag_jumpsOk (c : SeccompCondition) (off : Nat) (h1 : 1 ≤ off)
    (h2 : off ≤ 248) :
    jumpsOk 0 (c.into_bpf off) (cond_len c.operator + off) := by
  obtain ⟨a, op, v⟩ := c
  have e2 : (off + 2) % 256 = off + 2 := Nat.mod_eq_of_lt (by omega)
  have e3 : (off + 3) % 256 = off + 3 := Nat.mod_eq_of_lt (by omega)
  cases op <;>
    simp only [SeccompCondition.into_bpf, SeccompCondition.into_eq_bpf,
      SeccompCondition.into_ge_bpf, SeccompCondition.into_gt_bpf,
      SeccompCondition.into_le_bpf, SeccompCondition.into_lt_bpf,
      SeccompCondition.into_masked_eq_bpf, SeccompCondition.into_ne_bpf,
      SeccompCondition.value_segments, BPF_STMT, BPF_JUMP, BPF_LD, BPF_W,
      BPF_ABS, BPF_JMP, BPF_JEQ, BPF_JGT, BPF_JGE, BPF_K, BPF_ALU, BPF_AND,
      cond_len, e2, e3, jumpsOk_cons, jumpsOk_nil, instrOk, and_true] <;>
    norm_num <;> omega

lemma instrOk_ja {m pos k : Nat} (hk : k ≤ 255) (ht : pos + 1 + k ≤ m) :
    instrOk m pos (BPF_STMT (BPF_JMP + BPF_JA) k) := by
  constructor
  · intro _
    exact ⟨hk, ht⟩
  · intro hcode
    simp [BPF_STMT, BPF_JMP, BPF_JA] at hcode

lemma instrOk_ld (m pos k : Nat) :
    instrOk m pos (BPF_STMT (BPF_LD + BPF_W + BPF_ABS) k) := by
  constructor <;> intro hcode <;>
    simp [BPF_STMT, BPF_LD, BPF_W, BPF_ABS] at hcode

lemma instrOk_ret (m pos k : Nat) :
    instrOk m pos (BPF_STMT (BPF_RET + BPF_K) k) := by
  constructor <;> intro hcode <;>
    simp [BPF_STMT, BPF_RET, BPF_K] at hcode

lemma instrOk_jeq {m pos jt jf : Nat} (k : Nat) (hjt : jt ≤ 255)
    (hjf : jf ≤ 255) (ht : pos + 1 + jt ≤ m) (hf : pos + 1 + jf ≤ m) :
    instrOk m pos (BPF_JUMP (BPF_JMP + BPF_JEQ + BPF_K) k jt jf) := by
  constructor
  · intro hcode
    simp [BPF_JUMP, BPF_JMP, BPF_JEQ, BPF_K] at hcode
  · intro _
    exact ⟨hjt, hjf, ht, hf⟩

lemma helper_block_jumpsOk {off : Nat} {B : List sock_filter} (h2 : off ≤ 254)
    (h3 : off ≤ B.length) (hB : jumpsOk 0 B (B.length + 1)) :
    jumpsOk 0 (helper_block off ++ B) ((helper_block off ++ B).length + 1) := by
  have hlen : (helper_block off ++ B).length = 3 + B.length := by
    simp [helper_block]
    omega
  rw [hlen]
  show jumpsOk 0
    (BPF_STMT (BPF_JMP + BPF_JA) 2 :: BPF_STMT (BPF_JMP + BPF_JA) (off + 1) ::
      BPF_STMT (BPF_JMP + BPF_JA) (off + 1) :: B) (3 + B.length + 1)
  refine jumpsOk_cons.mpr ⟨instrOk_ja (by omega) (by omega),
    jumpsOk_cons.mpr ⟨instrOk_ja (by omega) (by omega),
    jumpsOk_cons.mpr ⟨instrOk_ja (by omega) (by omega), ?_⟩⟩⟩
  have hs := jumpsOk_shift 3 hB
  have e1 : (3 : Nat) + 0 = 0 + 1 + 1 + 1 := by omega
  have e2 : 3 + (B.length + 1) = 3 + B.length + 1 := by omega
  rw [e1, e2] at hs
  exact hs

/-- Invariant of the back-to-front rule construction: starting from a
region `B` (everything below the still-unprocessed conditions) whose jump
targets stay within one instruction past its end, with a running offset
that is positive, at most 254, and at most `B`'s length, the same holds
after laying the remaining conditions' pieces on top, and the final
running offset keeps those bounds. -/
lemma pieces_inv (cs : List SeccompCondition) (off : Nat)
    (B : List sock_filter) (h1 : 1 ≤ off) (h2 : off ≤ 254)
    (h3 : off ≤ B.length) (hB : jumpsOk 0 B (B.length + 1)) :
    1 ≤ (rule_pieces cs off).2 ∧ (rule_pieces cs off).2 ≤ 254 ∧
    (rule_pieces cs off).2 ≤
      ((rule_pieces cs off).1.reverse.flatten ++ B).length ∧
    jumpsOk 0 ((rule_pieces cs off).1.reverse.flatten ++ B)
      (((rule_pieces cs off).1.reverse.flatten ++ B).length + 1) := by
  induction cs generalizing off B with
  | nil =>
    simpa [rule_pieces] using ⟨h1, h2, h3, hB⟩
  | cons c cs ih =>
    by_cases hc : 249 ≤ off
    · have hfrag : (c.into_bpf 1).length = cond_len c.operator :=
        cond_into_bpf_length c 1
      have hlen6 : (c.into_bpf 1).length ≤ 6 := by
        rw [hfrag]; exact cond_len_le_six _
      have hlen1 : 1 ≤ (c.into_bpf 1).length := by
        rw [hfrag]; exact cond_len_pos _
      -- the new region below the remaining conditions
      set B' : List sock_filter := c.into_bpf 1 ++ (helper_block off ++ B)
        with hB'
      have hhl : (helper_block off ++ B).length = 3 + B.length := by
        simp [helper_block]
        omega
      have hBl : B'.length = (c.into_bpf 1).length + (3 + B.length) := by
        rw [hB']
        simp [hhl]
      have hHB : jumpsOk 0 (helper_block off ++ B)
          ((helper_block off ++ B).length + 1) :=
        helper_block_jumpsOk h2 h3 hB
      have hB'ok : jumpsOk 0 B' (B'.length + 1) := by
        rw [hB', jumpsOk_append]
        constructor
        · exact jumpsOk_mono
            (by omega : cond_len c.operator + 1 ≤ B'.length + 1)
            (frag_jumpsOk c 1 (by omega) (by omega))
        · have hs := jumpsOk_shift (c.into_bpf 1).length hHB
          have e1 : (c.into_bpf 1).length + 0 = 0 + (c.into_bpf 1).length := by
            omega
          have e2 : (c.into_bpf 1).length + ((helper_block off ++ B).length + 1)
              = B'.length + 1 := by
            rw [hhl]
            omega
          rw [e1, e2] at hs
          exact hs
      have hoff2 : 1 + (c.into_bpf 1).length ≤ B'.length := by omega
      have key := ih (1 + (c.into_bpf 1).length) B' (by omega) (by omega)
        hoff2 hB'ok
      have hpieces : rule_pieces (c :: cs) off =
          (helper_block off :: c.into_bpf 1 ::
            (rule_pieces cs (1 + (c.into_bpf 1).length)).1,
           (rule_pieces cs (1 + (c.into_bpf 1).length)).2) := by
        rw [rule_pieces]
        simp [hc]
      have hsplit : (rule_pieces (c :: cs) off).1.reverse.flatten ++ B =
          (rule_pieces cs (1 + (c.into_bpf 1).length)).1.reverse.flatten
            ++ B' := by
        rw [hpieces, hB']
        simp [List.reverse_cons, List.flatten_append, List.append_assoc]
      rw [hsplit, hpieces]
      exact key
    · push_neg at hc
      have hfrag : (c.into_bpf off).length = cond_len c.operator :=
        cond_into_bpf_length c off
      have hlen6 : (c.into_bpf off).length ≤ 6 := by
        rw [hfrag]; exact cond_len_le_six _
      have hlen1 : 1 ≤ (c.into_bpf off).length := by
        rw [hfrag]; exact cond_len_pos _
      set B' : List sock_filter := c.into_bpf off ++ B with hB'
      have hBl : B'.length = (c.into_bpf off).length + B.length := by
        rw [hB']
        simp
      have hB'ok : jumpsOk 0 B' (B'.length + 1) := by
        rw [hB', jumpsOk_append]
        constructor
        · exact jumpsOk_mono
            (by omega : cond_len c.operator + off ≤ B'.length + 1)
            (frag_jumpsOk c off h1 (by omega))
        · have hs := jumpsOk_shift (c.into_bpf off).length hB
          have e1 : (c.into_bpf off).length + 0 = 0 + (c.into_bpf off).length := by
            omega
          have e2 : (c.into_bpf off).length + (B.length + 1) = B'.length + 1 := by
            omega
          rw [e1, e2] at hs
          exact hs
      have hoff2 : off + (c.into_bpf off).length ≤ B'.length := by omega
      have key := ih (off + (c.into_bpf off).length) B' (by omega) (by omega)
        hoff2 hB'ok
      have hc2 : ¬ 249 ≤ off := by omega
      have hpieces : rule_pieces (c :: cs) off =
          (c.into_bpf off ::
            (rule_pieces cs (off + (c.into_bpf off).length)).1,
           (rule_pieces cs (off + (c.into_bpf off).length)).2) := by
        rw [rule_pieces]
        simp [hc2]
      have hsplit : (rule_pieces (c :: cs) off).1.reverse.flatten ++ B =
          (rule_pieces cs (off + (c.into_bpf off).length)).1.reverse.flatten
            ++ B' := by
        rw [hpieces, hB']
        simp [List.reverse_cons, List.flatten_append, List.append_assoc]
      rw [hsplit, hpieces]
      exact key

/-- The condition loop of `SeccompRule::into_bpf` computes `rule_pieces`:
the accumulator grows by exactly the pieces (in push order) and the final
`u8` offset equals the reference offset, all `u8` wrap-arounds being
identities under the running-offset invariant. -/
lemma rule_fold_eq (cs : List SeccompCondition)
    (acc : List (List sock_filter)) (len off : Nat) (h1 : 1 ≤ off)
    (h2 : off ≤ 254) :
    ∃ L, cs.foldl
      (fun (s : List (List sock_filter) × Nat × Nat) condition =>
        SeccompRule.append_condition condition s.1 s.2.1 s.2.2)
      (acc, len, off)
      = (acc ++ (rule_pieces cs off).1, L, (rule_pieces cs off).2) := by
  induction cs generalizing acc len off with
  | nil =>
    exact ⟨len, by simp [rule_pieces]⟩
  | cons c cs ih =>
    by_cases hc : 249 ≤ off
    · have hcond : off + CONDITION_MAX_LEN + 1 > 255 := by
        simp [CONDITION_MAX_LEN]
        omega
      have hfrag : (c.into_bpf 1).length = cond_len c.operator :=
        cond_into_bpf_length c 1
      have hlen6 : (c.into_bpf 1).length ≤ 6 := by
        rw [hfrag]; exact cond_len_le_six _
      have hmod : (1 + (c.into_bpf 1).length) % 256 = 1 + (c.into_bpf 1).length :=
        Nat.mod_eq_of_lt (by omega)
      have hstep : SeccompRule.append_condition c acc len off =
          (acc ++ [helper_block off] ++ [c.into_bpf 1],
           len + 3 + (c.into_bpf 1).length, 1 + (c.into_bpf 1).length) := by
        rw [SeccompRule.append_condition]
        rw [if_pos hcond]
        simp [helper_block, hmod, Nat.add_comm]
      rw [List.foldl_cons, hstep]
      obtain ⟨L, hL⟩ := ih (acc ++ [helper_block off] ++ [c.into_bpf 1])
        (len + 3 + (c.into_bpf 1).length) (1 + (c.into_bpf 1).length)
        (by omega) (by omega)
      refine ⟨L, ?_⟩
      rw [hL]
      have hpieces : rule_pieces (c :: cs) off =
          (helper_block off :: c.into_bpf 1 ::
            (rule_pieces cs (1 + (c.into_bpf 1).length)).1,
           (rule_pieces cs (1 + (c.into_bpf 1).length)).2) := by
        rw [rule_pieces]
        simp [hc]
      rw [hpieces]
      simp
    · push_neg at hc
      have hcond : ¬ off + CONDITION_MAX_LEN + 1 > 255 := by
        simp [CONDITION_MAX_LEN]
        omega
      have hfrag : (c.into_bpf off).length = cond_len c.operator :=
        cond_into_bpf_length c off
      have hlen6 : (c.into_bpf off).length ≤ 6 := by
        rw [hfrag]; exact cond_len_le_six _
      have hlen1 : 1 ≤ (c.into_bpf off).length := by
        rw [hfrag]; exact cond_len_pos _
      have hmod : (off + (c.into_bpf off).length) % 256
          = off + (c.into_bpf off).length :=
        Nat.mod_eq_of_lt (by omega)
      have hstep : SeccompRule.append_condition c acc len off =
          (acc ++ [c.into_bpf off], len + (c.into_bpf off).length,
           off + (c.into_bpf off).length) := by
        rw [SeccompRule.append_condition]
        rw [if_neg hcond]
        simp [hmod]
      rw [List.foldl_cons, hstep]
      obtain ⟨L, hL⟩ := ih (acc ++ [c.into_bpf off])
        (len + (c.into_bpf off).length) (off + (c.into_bpf off).length)
        (by omega) (by omega)
      refine ⟨L, ?_⟩
      rw [hL]
      have hc2 : ¬ 249 ≤ off := by omega
      have hpieces : rule_pieces (c :: cs) off =
          (c.into_bpf off ::
            (rule_pieces cs (off + (c.into_bpf off).length)).1,
           (rule_pieces cs (off + (c.into_bpf off).length)).2) := by
        rw [rule_pieces]
        simp [hc2]
      rw [hpieces]
      simp

/-- Structure of a compiled rule: the two entry jumps, then the pieces of
`rule_pieces` flattened in reverse push order, then the terminal action. -/
lemma rule_into_bpf_eq (r : SeccompRule) :
    r.into_bpf =
      BPF_STMT (BPF_JMP + BPF_JA) 1 ::
      BPF_STMT (BPF_JMP + BPF_JA) ((rule_pieces r.conditions 1).2 + 1) ::
      ((rule_pieces r.conditions 1).1.reverse.flatten
        ++ [BPF_STMT (BPF_RET + BPF_K) r.action.into_u32]) := by
  rw [SeccompRule.into_bpf]
  obtain ⟨L, hL⟩ := rule_fold_eq r.conditions
    [[BPF_STMT (BPF_RET + BPF_K) r.action.into_u32]] 1 1 (by omega) (by omega)
  rw [hL]
  simp [List.reverse_append, List.flatten_append]

/-- Jump safety of one compiled rule: every jump field fits in 8 bits and
every jump target stays at most one instruction past the rule's end. -/
lemma rule_jumpsOk (r : SeccompRule) :
    jumpsOk 0 r.into_bpf (r.into_bpf.length + 1) := by
  have hRET : jumpsOk 0 [BPF_STMT (BPF_RET + BPF_K) r.action.into_u32]
      ((1 : Nat) + 1) := by
    refine jumpsOk_cons.mpr ⟨instrOk_ret _ _ _, jumpsOk_nil _ _⟩
  have inv := pieces_inv r.conditions 1
    [BPF_STMT (BPF_RET + BPF_K) r.action.into_u32] (by omega) (by omega)
    (by simp) (by simpa using hRET)
  obtain ⟨i1, i2, i3, i4⟩ := inv
  rw [rule_into_bpf_eq]
  set body := (rule_pieces r.conditions 1).1.reverse.flatten
    ++ [BPF_STMT (BPF_RET + BPF_K) r.action.into_u32] with hbody
  have hlen : (BPF_STMT (BPF_JMP + BPF_JA) 1 ::
      BPF_STMT (BPF_JMP + BPF_JA) ((rule_pieces r.conditions 1).2 + 1) ::
      body).length = body.length + 2 := by
    simp
  rw [hlen]
  refine jumpsOk_cons.mpr ⟨instrOk_ja (by omega) (by omega),
    jumpsOk_cons.mpr ⟨instrOk_ja (by omega) (by omega), ?_⟩⟩
  have hs := jumpsOk_shift 2 i4
  have e1 : (2 : Nat) + 0 = 0 + 1 + 1 := by omega
  have e2 : 2 + (body.length + 1) = body.length + 2 + 1 := by omega
  rw [e1, e2] at hs
  exact hs

lemma flatten_rules_jumpsOk (rs : List SeccompRule) :
    jumpsOk 0 ((rs.map SeccompRule.into_bpf).flatten)
      (((rs.map SeccompRule.into_bpf).flatten).length + 1) := by
  induction rs with
  | nil => simpa using jumpsOk_nil 0 _
  | cons r rs ih =>
    have hsplit : ((r :: rs).map SeccompRule.into_bpf).flatten =
        r.into_bpf ++ (rs.map SeccompRule.into_bpf).flatten := by
      simp
    rw [hsplit]
    refine jumpsOk_append.mpr ⟨?_, ?_⟩
    · refine jumpsOk_mono ?_ (rule_jumpsOk r)
      simp only [List.length_append]
      omega
    · have hs := jumpsOk_shift r.into_bpf.length ih
      have e1 : r.into_bpf.length + 0 = 0 + r.into_bpf.length := by omega
      have e2 : r.into_bpf.length +
          ((rs.map SeccompRule.into_bpf).flatten.length + 1) =
          (r.into_bpf ++ (rs.map SeccompRule.into_bpf).flatten).length + 1 := by
        simp
        omega
      rw [e1, e2] at hs
      exact hs

/-- Jump safety of one syscall chain: every jump target stays within the
chain or at the instruction immediately following it. -/
lemma chain_jumpsOk (d : Nat) (e : Int × Int × List SeccompRule) :
    jumpsOk 0 (build_chain d e) (build_chain d e).length := by
  rw [build_chain]
  simp only [List.length_cons, List.length_append, List.length_nil]
  refine jumpsOk_cons.mpr ⟨instrOk_jeq _ (by omega) (by omega) (by omega)
    (by omega), ?_⟩
  refine jumpsOk_append.mpr ⟨?_, ?_⟩
  · have hs := jumpsOk_shift 1 (flatten_rules_jumpsOk e.2.2)
    have e1 : (1 : Nat) + 0 = 0 + 1 := by omega
    have e2 : 1 + ((e.2.2.map SeccompRule.into_bpf).flatten.length + 1) =
        (e.2.2.map SeccompRule.into_bpf).flatten.length + (0 + 1) + 1 := by omega
    rw [e1, e2] at hs
    exact hs
  · refine jumpsOk_cons.mpr ⟨instrOk_ret _ _ _, jumpsOk_nil _ _⟩

/-- `append_syscall_chain` appends `build_chain` of the entry and fails
exactly when the accumulated length reaches `BPF_MAX_LEN`. -/
lemma append_syscall_chain_eq (e : Int × Int × List SeccompRule) (d : Nat)
    (acc : List (List sock_filter)) (clen : Nat) :
    SeccompFilterContext.append_syscall_chain e.1 e.2.2 d acc clen =
      if 4096 ≤ clen + (build_chain d e).length then .error .ContextTooLarge
      else .ok (acc ++ [build_chain d e], clen + (build_chain d e).length) := by
  rw [SeccompFilterContext.append_syscall_chain]
  simp only [build_chain, BPF_MAX_LEN, List.cons_append, List.nil_append,
    ge_iff_le]

lemma fold_chains_eq (d : Nat) (l : List (Int × Int × List SeccompRule))
    (acc : List (List sock_filter)) (clen : Nat) :
    l.foldlM
      (fun (s : List (List sock_filter) × Nat) e =>
        SeccompFilterContext.append_syscall_chain e.1 e.2.2 d s.1 s.2)
      (acc, clen) =
      if l ≠ [] ∧ 4096 ≤ clen + chains_len d l then
        Except.error Error.ContextTooLarge
      else Except.ok (acc ++ l.map (build_chain d), clen + chains_len d l) := by
  induction l generalizing acc clen with
  | nil =>
    simp [chains_len]
    rfl
  | cons e t ih =>
    rw [List.foldlM_cons, append_syscall_chain_eq]
    have hcl : chains_len d (e :: t) =
        (build_chain d e).length + chains_len d t := by
      simp [chains_len]
    by_cases h1 : 4096 ≤ clen + (build_chain d e).length
    · rw [if_pos h1]
      have hcond : (e :: t ≠ [] ∧ 4096 ≤ clen + chains_len d (e :: t)) := by
        refine ⟨by simp, ?_⟩
        rw [hcl]
        omega
      rw [if_pos hcond]
      rfl
    · rw [if_neg h1]
      show (t.foldlM
        (fun (s : List (List sock_filter) × Nat) e =>
          SeccompFilterContext.append_syscall_chain e.1 e.2.2 d s.1 s.2)
        (acc ++ [build_chain d e], clen + (build_chain d e).length)) = _
      rw [ih]
      by_cases h2 : t = []
      · subst h2
        have c1 : ¬ ((([] : List (Int × Int × List SeccompRule)) ≠ []) ∧
            4096 ≤ clen + (build_chain d e).length + chains_len d []) := by
          simp
        rw [if_neg c1]
        have c2 : ¬ ((e :: ([] : List (Int × Int × List SeccompRule)) ≠ []) ∧
            4096 ≤ clen + chains_len d [e]) := by
          rw [hcl]
          simp [chains_len]
          omega
        rw [if_neg c2, hcl]
        simp [chains_len]
      · have hiff : (t ≠ [] ∧
            4096 ≤ clen + (build_chain d e).length + chains_len d t) ↔
            ((e :: t ≠ []) ∧ 4096 ≤ clen + chains_len d (e :: t)) := by
          rw [hcl]
          constructor
          · rintro ⟨_, hx⟩
            exact ⟨by simp, by omega⟩
          · rintro ⟨_, hx⟩
            exact ⟨h2, by omega⟩
        by_cases h3 : t ≠ [] ∧ 4096 ≤ clen + (build_chain d e).length + chains_len d t
        · rw [if_pos h3, if_pos (hiff.mp h3)]
        · rw [if_neg h3, if_neg (fun hx => h3 (hiff.mpr hx))]
          rw [hcl]
          simp [List.append_assoc]
          omega

/-- Characterization of `SeccompFilterContext::into_bpf`: the compilation
fails with `ContextTooLarge` exactly when the running length reaches
`BPF_MAX_LEN`, and otherwise produces the syscall-number load, the chains
of the priority-sorted entries, and a final default action. -/
lemma into_bpf_eq (ctx : SeccompFilterContext) :
    ctx.into_bpf =
      if sort_by_priority ctx.rules ≠ [] ∧
          4096 ≤ 1 + chains_len ctx.default_action.into_u32
            (sort_by_priority ctx.rules) then
        Except.error Error.ContextTooLarge
      else Except.ok
        (BPF_STMT (BPF_LD + BPF_W + BPF_ABS) SECCOMP_DATA_NR_OFFSET ::
          ((sort_by_priority ctx.rules).map
            (build_chain ctx.default_action.into_u32)).flatten
          ++ [BPF_STMT (BPF_RET + BPF_K) ctx.default_action.into_u32]) := by
  rw [SeccompFilterContext.into_bpf]
  rw [fold_chains_eq]
  by_cases h : sort_by_priority ctx.rules ≠ [] ∧
      4096 ≤ 1 + chains_len ctx.default_action.into_u32
        (sort_by_priority ctx.rules)
  · rw [if_pos h, if_pos h]
    rfl
  · rw [if_neg h, if_neg h]
    show Except.ok _ = _
    congr 1
    simp

lemma insert_by_priority_perm (e : Int × Int × List SeccompRule)
    (l : List (Int × Int × List SeccompRule)) :
    (insert_by_priority e l).Perm (e :: l) := by
  induction l with
  | nil => rfl
  | cons x t ih =>
    rw [insert_by_priority]
    by_cases h : e.2.1 ≤ x.2.1
    · rw [if_pos h]
      exact (ih.cons x).trans (List.Perm.swap e x t)
    · rw [if_neg h]

lemma sort_by_priority_perm (l : List (Int × Int × List SeccompRule)) :
    (sort_by_priority l).Perm l := by
  induction l with
  | nil => rfl
  | cons x t ih =>
    have : sort_by_priority (x :: t) =
        insert_by_priority x (sort_by_priority t) := rfl
    rw [this]
    exact (insert_by_priority_perm x (sort_by_priority t)).trans (ih.cons x)

lemma insert_by_priority_pairwise (e : Int × Int × List SeccompRule)
    (l : List (Int × Int × List SeccompRule))
    (h : List.Pairwise (fun a b => b.2.1 ≤ a.2.1) l) :
    List.Pairwise (fun a b => b.2.1 ≤ a.2.1) (insert_by_priority e l) := by
  induction l with
  | nil => simp [insert_by_priority]
  | cons x t ih =>
    rw [insert_by_priority]
    rw [List.pairwise_cons] at h
    obtain ⟨hx, ht⟩ := h
    by_cases hle : e.2.1 ≤ x.2.1
    · rw [if_pos hle]
      rw [List.pairwise_cons]
      refine ⟨fun y hy => ?_, ih ht⟩
      have hy2 := (insert_by_priority_perm e t).mem_iff.mp hy
      rw [List.mem_cons] at hy2
      rcases hy2 with hy2 | hy2
      · rw [hy2]
        exact hle
      · exact hx y hy2
    · rw [if_neg hle]
      rw [List.pairwise_cons]
      refine ⟨fun y hy => ?_, by rw [List.pairwise_cons]; exact ⟨hx, ht⟩⟩
      rw [List.mem_cons] at hy
      rcases hy with hy | hy
      · rw [hy]
        omega
      · have := hx y hy
        omega

lemma sort_by_priority_pairwise (l : List (Int × Int × List SeccompRule)) :
    List.Pairwise (fun a b => b.2.1 ≤ a.2.1) (sort_by_priority l) := by
  induction l with
  | nil => simp [sort_by_priority]
  | cons x t ih =>
    exact insert_by_priority_pairwise x (sort_by_priority t) ih

lemma chains_len_sorted (d : Nat) (l : List (Int × Int × List SeccompRule)) :
    chains_len d (sort_by_priority l) = chains_len d l := by
  unfold chains_len
  exact ((sort_by_priority_perm l).map _).sum_eq

lemma sort_eq_nil_iff (l : List (Int × Int × List SeccompRule)) :
    sort_by_priority l = [] ↔ l = [] := by
  constructor
  · intro h
    have := (sort_by_priority_perm l).length_eq
    rw [h] at this
    exact List.length_eq_zero.mp this.symm
  · intro h
    rw [h]
    rfl

lemma exRuleEmpty_len : (SeccompRule.into_bpf exRuleEmpty).length = 3 := by
  decide

lemma exCtxTooLarge_chains_len :
    chains_len exCtxTooLarge.default_action.into_u32 exCtxTooLarge.rules
      = 4097 := by
  show chains_len exCtxTooLarge.default_action.into_u32
    [(0, 0, List.replicate 1365 exRuleEmpty)] = 4097
  unfold chains_len
  rw [List.map_cons, List.map_nil, List.sum_cons, List.sum_nil]
  rw [build_chain]
  simp only [List.length_cons, List.length_append, List.length_nil]
  rw [List.map_replicate, List.length_flatten, List.map_replicate,
    exRuleEmpty_len, List.sum_replicate, smul_eq_mul]
  norm_num

lemma exCtxTooLarge_sort :
    sort_by_priority exCtxTooLarge.rules = exCtxTooLarge.rules := rfl

lemma exCtxTooLarge_into_bpf :
    exCtxTooLarge.into_bpf = Except.error Error.ContextTooLarge := by
  rw [into_bpf_eq]
  rw [if_pos]
  rw [exCtxTooLarge_sort, exCtxTooLarge_chains_len]
  refine ⟨?_, by omega⟩
  intro h
  exact List.noConfusion h

lemma flatten_chains_length (d : Nat)
    (l : List (Int × Int × List SeccompRule)) :
    ((l.map (build_chain d)).flatten).length = chains_len d l := by
  rw [List.length_flatten, List.map_map]
  rfl

lemma flatten_chains_jumpsOk (d : Nat)
    (l : List (Int × Int × List SeccompRule)) :
    jumpsOk 0 ((l.map (build_chain d)).flatten)
      (((l.map (build_chain d)).flatten).length) := by
  induction l with
  | nil => simpa using jumpsOk_nil 0 _
  | cons e t ih =>
    have hsplit : ((e :: t).map (build_chain d)).flatten =
        build_chain d e ++ (t.map (build_chain d)).flatten := by
      simp
    rw [hsplit]
    refine jumpsOk_append.mpr ⟨?_, ?_⟩
    · refine jumpsOk_mono ?_ (chain_jumpsOk d e)
      simp only [List.length_append]
      omega
    · have hs := jumpsOk_shift (build_chain d e).length ih
      have e1 : (build_chain d e).length + 0 = 0 + (build_chain d e).length := by
        omega
      have e2 : (build_chain d e).length + (t.map (build_chain d)).flatten.length
          = (build_chain d e ++ (t.map (build_chain d)).flatten).length := by
        simp
      rw [e1, e2] at hs
      exact hs

/-- Every successfully compiled program keeps all its jump targets at most
one short of its length. -/
lemma into_bpf_ok_jumpsOk (ctx : SeccompFilterContext)
    (prog : List sock_filter) (hok : ctx.into_bpf = Except.ok prog) :
    2 ≤ prog.length ∧ jumpsOk 0 prog (prog.length - 1) := by
  have hchar := into_bpf_eq ctx
  by_cases hcond : sort_by_priority ctx.rules ≠ [] ∧
      4096 ≤ 1 + chains_len ctx.default_action.into_u32
        (sort_by_priority ctx.rules)
  · rw [if_pos hcond] at hchar
    rw [hok] at hchar
    exact Except.noConfusion hchar
  · rw [if_neg hcond] at hchar
    rw [hok] at hchar
    have hprog := Except.ok.inj hchar
    set d := ctx.default_action.into_u32 with hd
    set flat := ((sort_by_priority ctx.rules).map (build_chain d)).flatten
      with hflat
    have hlen : prog.length = flat.length + 2 := by
      rw [hprog]
      simp
    constructor
    · omega
    · rw [hprog]
      have h2 : (BPF_STMT (BPF_LD + BPF_W + BPF_ABS) SECCOMP_DATA_NR_OFFSET ::
          flat ++ [BPF_STMT (BPF_RET + BPF_K) d]).length - 1 =
          flat.length + 1 := by
        simp
      rw [h2]
      refine jumpsOk_cons.mpr ⟨instrOk_ld _ _ _, ?_⟩
      refine jumpsOk_append.mpr ⟨?_, ?_⟩
      · have hs := jumpsOk_shift 1 (flatten_chains_jumpsOk d
          (sort_by_priority ctx.rules))
        have e1 : (1 : Nat) + 0 = 0 + 1 := by omega
        have e2 : 1 + flat.length = flat.length + 1 := by omega
        rw [e1, e2] at hs
        exact hs
      · refine jumpsOk_cons.mpr ⟨instrOk_ret _ _ _, jumpsOk_nil _ _⟩

lemma pieces_len_ge (cs : List SeccompCondition) (off : Nat) :
    cs.length ≤ (rule_pieces cs off).1.length := by
  induction cs generalizing off with
  | nil => simp [rule_pieces]
  | cons c cs ih =>
    rw [rule_pieces]
    by_cases hc : 249 ≤ off
    · simp only [if_pos hc, List.length_cons]
      have := ih (1 + (c.into_bpf 1).length)
      omega
    · simp only [if_neg hc, List.length_cons]
      have := ih (off + (c.into_bpf off).length)
      omega

/-- When no helper block was inserted (one piece per condition), the final
running offset counts exactly the emitted fragments plus the initial
offset. -/
lemma pieces_no_helper_offset (cs : List SeccompCondition) (off : Nat)
    (h : (rule_pieces cs off).1.length = cs.length) :
    (rule_pieces cs off).2 = off + (rule_pieces cs off).1.reverse.flatten.length := by
  induction cs generalizing off with
  | nil => simp [rule_pieces]
  | cons c cs ih =>
    by_cases hc : 249 ≤ off
    · exfalso
      rw [rule_pieces] at h
      simp only [if_pos hc, List.length_cons] at h
      have := pieces_len_ge cs (1 + (c.into_bpf 1).length)
      omega
    · rw [rule_pieces] at h ⊢
      simp only [if_neg hc, List.length_cons] at h ⊢
      have hrec := ih (off + (c.into_bpf off).length) (by omega)
      rw [hrec]
      simp [List.flatten_append]
      omega

/-- C1.  `SeccompFilterContext::into_bpf` fails, always with
`ContextTooLarge`, exactly when the compiled program length (syscall
number load + chains + final default action, `compiled_len`) would exceed
4096 instructions, and every program it returns has at most 4096
instructions (whose count is exactly `compiled_len`). -/
theorem into_bpf_context_too_large_iff (ctx : SeccompFilterContext) :
    (ctx.into_bpf = Except.error Error.ContextTooLarge ↔
      4096 < compiled_len ctx) ∧
    (∀ e, ctx.into_bpf = Except.error e → e = Error.ContextTooLarge) ∧
    (∀ prog, ctx.into_bpf = Except.ok prog →
      prog.length = compiled_len ctx ∧ prog.length ≤ 4096) := by
  have hchar := into_bpf_eq ctx
  have hsum := chains_len_sorted ctx.default_action.into_u32 ctx.rules
  by_cases hcond : sort_by_priority ctx.rules ≠ [] ∧
      4096 ≤ 1 + chains_len ctx.default_action.into_u32
        (sort_by_priority ctx.rules)
  · rw [if_pos hcond] at hchar
    have hgt : 4096 < compiled_len ctx := by
      unfold compiled_len
      omega
    refine ⟨⟨fun _ => hgt, fun _ => hchar⟩, fun e he => ?_, fun prog hp => ?_⟩
    · have h2 := hchar.symm.trans he
      exact (Except.error.inj h2).symm
    · have h2 := hchar.symm.trans hp
      exact Except.noConfusion h2
  · rw [if_neg hcond] at hchar
    have hle : compiled_len ctx ≤ 4096 := by
      unfold compiled_len
      by_cases hnil : sort_by_priority ctx.rules = []
      · have h0 : chains_len ctx.default_action.into_u32
            (sort_by_priority ctx.rules) = 0 := by
          rw [hnil]
          simp [chains_len]
        omega
      · have h0 : ¬ 4096 ≤ 1 + chains_len ctx.default_action.into_u32
            (sort_by_priority ctx.rules) := fun hx => hcond ⟨hnil, hx⟩
        omega
    refine ⟨⟨fun he => ?_, fun hlt => absurd hlt (by omega)⟩,
      fun e he => ?_, fun prog hp => ?_⟩
    · have h2 := hchar.symm.trans he
      exact Except.noConfusion h2
    · have h2 := hchar.symm.trans he
      exact Except.noConfusion h2
    · have h2 := hchar.symm.trans hp
      have hprog := (Except.ok.inj h2).symm
      have hlen : prog.length = compiled_len ctx := by
        rw [hprog]
        simp only [List.length_cons, List.length_append, List.length_nil,
          flatten_chains_length]
        unfold compiled_len
        omega
      exact ⟨hlen, by omega⟩

/-- C1 witness: the small context `exCtx` compiles to the 7-instruction
program `exProg`, whose length is its `compiled_len` and at most 4096. -/
theorem into_bpf_context_too_large_iff_witness :
    exProg.length = compiled_len exCtx ∧ exProg.length ≤ 4096 :=
  (into_bpf_context_too_large_iff exCtx).2.2 exProg (by decide)

/-- C2.  A compiled program starts with the syscall-number load, then
lists the chains of the priority-sorted entries — a permutation of the
context's entries, pairwise in descending priority order, so a chain of
strictly greater priority is emitted earlier — each chain being its
syscall-number guard, its rule fragments in order, and one
`return default-action`; one final `return default-action` ends the
program. -/
theorem into_bpf_program_structure (ctx : SeccompFilterContext)
    (prog : List sock_filter) (hok : ctx.into_bpf = Except.ok prog) :
    (sort_by_priority ctx.rules).Perm ctx.rules ∧
    List.Pairwise (fun a b => b.2.1 ≤ a.2.1) (sort_by_priority ctx.rules) ∧
    prog = BPF_STMT (BPF_LD + BPF_W + BPF_ABS) SECCOMP_DATA_NR_OFFSET ::
      ((sort_by_priority ctx.rules).map (fun e =>
        BPF_JUMP (BPF_JMP + BPF_JEQ + BPF_K) (i64_as_u32 e.1) 0 1 ::
          (e.2.2.map SeccompRule.into_bpf).flatten
          ++ [BPF_STMT (BPF_RET + BPF_K) ctx.default_action.into_u32])).flatten
      ++ [BPF_STMT (BPF_RET + BPF_K) ctx.default_action.into_u32] := by
  refine ⟨sort_by_priority_perm _, sort_by_priority_pairwise _, ?_⟩
  have hchar := into_bpf_eq ctx
  by_cases hcond : sort_by_priority ctx.rules ≠ [] ∧
      4096 ≤ 1 + chains_len ctx.default_action.into_u32
        (sort_by_priority ctx.rules)
  · rw [if_pos hcond] at hchar
    rw [hok] at hchar
    exact Except.noConfusion hchar
  · rw [if_neg hcond] at hchar
    rw [hok] at hchar
    exact Except.ok.inj hchar

/-- C2 witness: the structure theorem applied to `exCtx` and its program
`exProg`. -/
theorem into_bpf_program_structure_witness :
    (sort_by_priority exCtx.rules).Perm exCtx.rules ∧
    List.Pairwise (fun a b => b.2.1 ≤ a.2.1) (sort_by_priority exCtx.rules) ∧
    exProg = BPF_STMT (BPF_LD + BPF_W + BPF_ABS) SECCOMP_DATA_NR_OFFSET ::
      ((sort_by_priority exCtx.rules).map (fun e =>
        BPF_JUMP (BPF_JMP + BPF_JEQ + BPF_K) (i64_as_u32 e.1) 0 1 ::
          (e.2.2.map SeccompRule.into_bpf).flatten
          ++ [BPF_STMT (BPF_RET + BPF_K) exCtx.default_action.into_u32])).flatten
      ++ [BPF_STMT (BPF_RET + BPF_K) exCtx.default_action.into_u32] :=
  into_bpf_program_structure exCtx exProg (by decide)

set_option maxRecDepth 4000

/-- C3 counterexample.  The claim places the helper block exactly where a
fragment would need a jump offset of 256 or more; compiled that way, the
63-equality-condition rule `exRule63` would get no helper block (at its
largest running offset, 249, an equality fragment only needs offset 251)
and 255 instructions — but the source compiler, whose test is the
conservative `offset + CONDITION_MAX_LEN + 1 > 255`, inserts one helper
block and emits 258 instructions. -/
theorem helper_insertion_threshold_counterexample :
    SeccompRule.into_bpf exRule63 ≠ rule_into_bpf_claim exRule63 ∧
    (SeccompRule.into_bpf exRule63).length = 258 ∧
    (rule_into_bpf_claim exRule63).length = 255 := by
  decide

/-- C3 amended.  While compiling a rule's conditions back to front, the
three-instruction helper block (jump past the in-progress chain, jump to
the next rule, jump to the next chain or default action) is inserted, and
the running offset reset to 1, exactly when the running offset is at least
249 — i.e. when `offset + CONDITION_MAX_LEN + 1` exceeds 255, a
conservative test independent of the next condition's actual operator —
as computed by the reference recursion `rule_pieces`. -/
theorem helper_insertion_threshold_amended (r : SeccompRule) :
    r.into_bpf =
      BPF_STMT (BPF_JMP + BPF_JA) 1 ::
      BPF_STMT (BPF_JMP + BPF_JA) ((rule_pieces r.conditions 1).2 + 1) ::
      ((rule_pieces r.conditions 1).1.reverse.flatten
        ++ [BPF_STMT (BPF_RET + BPF_K) r.action.into_u32]) :=
  rule_into_bpf_eq r

/-- C4 counterexample.  For the condition-free allow rule the compiled
fragment is `[JA 1, JA 2, RET allow]`; the second entry jump (index 1,
`k = 2`) targets index `1 + 1 + 2 = 4`, not index 3 — the instruction just
past the rule's terminal action. -/
theorem rule_entry_jumps_counterexample :
    SeccompRule.into_bpf exRuleEmpty =
      [BPF_STMT (BPF_JMP + BPF_JA) 1, BPF_STMT (BPF_JMP + BPF_JA) 2,
       BPF_STMT (BPF_RET + BPF_K) 0x7fff0000] ∧
    1 + 1 + 2 ≠ (SeccompRule.into_bpf exRuleEmpty).length := by
  decide

/-- C4 amended.  A compiled rule begins with two unconditional jumps: the
first targets the rule's body, skipping exactly the second jump; the
second jump's offset is the final running offset plus one, and whenever no
helper block was inserted its target is one instruction *beyond* the
instruction just past the rule's terminal action (landing on the next
rule's second entry jump, or one past the chain's default action — the
chain-exit cascade). -/
theorem rule_entry_jumps_amended (r : SeccompRule) :
    (r.into_bpf)[0]? = some (BPF_STMT (BPF_JMP + BPF_JA) 1) ∧
    (r.into_bpf)[1]? = some
      (BPF_STMT (BPF_JMP + BPF_JA) ((rule_pieces r.conditions 1).2 + 1)) ∧
    ((rule_pieces r.conditions 1).1.length = r.conditions.length →
      1 + 1 + ((rule_pieces r.conditions 1).2 + 1) = r.into_bpf.length + 1) := by
  rw [rule_into_bpf_eq]
  refine ⟨by simp, by simp, fun hnh => ?_⟩
  have hoff := pieces_no_helper_offset r.conditions 1 hnh
  simp only [List.length_cons, List.length_append, List.length_nil]
  omega

/-- C4 amended witness: for the condition-free rule (no helper block), the
second jump's target `1 + 1 + k` is the rule length plus one. -/
theorem rule_entry_jumps_amended_witness :
    1 + 1 + ((rule_pieces exRuleEmpty.conditions 1).2 + 1) =
      (SeccompRule.into_bpf exRuleEmpty).length + 1 :=
  (rule_entry_jumps_amended exRuleEmpty).2.2 (by decide)

/-- C5.  In every successfully compiled program, every unconditional
jump's `k` and every conditional jump's `jt`/`jf` fit in 8 bits, and every
jump target lands strictly within the program. -/
theorem into_bpf_jump_safety (ctx : SeccompFilterContext)
    (prog : List sock_filter) (hok : ctx.into_bpf = Except.ok prog)
    (idx : Nat) (ins : sock_filter) (hins : prog[idx]? = some ins) :
    (ins.code = BPF_JMP + BPF_JA →
      ins.k ≤ 255 ∧ idx + 1 + ins.k < prog.length) ∧
    ((ins.code = BPF_JMP + BPF_JEQ + BPF_K ∨
      ins.code = BPF_JMP + BPF_JGT + BPF_K ∨
      ins.code = BPF_JMP + BPF_JGE + BPF_K) →
      ins.jt ≤ 255 ∧ ins.jf ≤ 255 ∧
      idx + 1 + ins.jt < prog.length ∧ idx + 1 + ins.jf < prog.length) := by
  obtain ⟨hlen2, hjo⟩ := into_bpf_ok_jumpsOk ctx prog hok
  have hi := hjo idx ins hins
  have hi0 : instrOk (prog.length - 1) (0 + idx) ins := hi
  rw [Nat.zero_add] at hi0
  constructor
  · intro hcode
    have h5 : ins.code = 5 := hcode
    obtain ⟨hk, ht⟩ := hi0.1 h5
    exact ⟨hk, by omega⟩
  · intro hcode
    have hc : ins.code = 21 ∨ ins.code = 37 ∨ ins.code = 53 := hcode
    obtain ⟨h1, h2, h3, h4⟩ := hi0.2 hc
    exact ⟨h1, h2, by omega, by omega⟩

/-- C5 witness: in `exCtx`'s program the syscall guard at index 1 has
8-bit offsets and in-program targets. -/
theorem into_bpf_jump_safety_witness :
    (BPF_JUMP (BPF_JMP + BPF_JEQ + BPF_K) 1 0 1).jt ≤ 255 ∧
    (BPF_JUMP (BPF_JMP + BPF_JEQ + BPF_K) 1 0 1).jf ≤ 255 ∧
    1 + 1 + (BPF_JUMP (BPF_JMP + BPF_JEQ + BPF_K) 1 0 1).jt < exProg.length ∧
    1 + 1 + (BPF_JUMP (BPF_JMP + BPF_JEQ + BPF_K) 1 0 1).jf < exProg.length :=
  (into_bpf_jump_safety exCtx exProg (by decide) 1
    (BPF_JUMP (BPF_JMP + BPF_JEQ + BPF_K) 1 0 1) (by decide)).2 (Or.inl rfl)

/-- C6.  For a valid condition (argument index at most 5) and any jump
offset, `SeccompCondition::into_bpf` emits at most `CONDITION_MAX_LEN = 6`
instructions — exactly 4 for `eq`/`ne`, 5 for `ge`/`gt`/`le`/`lt`, 6 for
masked-eq — so the assertion guarding the bound can never fire. -/
theorem condition_fragment_length_bound (c : SeccompCondition) (offset : Nat)
    (h : c.arg_number ≤ ARG_NUMBER_MAX) :
    (c.into_bpf offset).length ≤ CONDITION_MAX_LEN ∧
    ((c.operator = SeccompCmpOp.Eq ∨ c.operator = SeccompCmpOp.Ne) →
      (c.into_bpf offset).length = 4) ∧
    ((c.operator = SeccompCmpOp.Ge ∨ c.operator = SeccompCmpOp.Gt ∨
      c.operator = SeccompCmpOp.Le ∨ c.operator = SeccompCmpOp.Lt) →
      (c.into_bpf offset).length = 5) ∧
    (∀ mask, c.operator = SeccompCmpOp.MaskedEq mask →
      (c.into_bpf offset).length = 6) := by
  obtain ⟨a, op, v⟩ := c
  simp only [cond_into_bpf_length]
  cases op <;> simp [cond_len, CONDITION_MAX_LEN]

/-- C6 witness: an equality condition on argument 0 emits at most 6
instructions. -/
theorem condition_fragment_length_bound_witness :
    (SeccompCondition.into_bpf
      { arg_number := 0, operator := SeccompCmpOp.Eq, value := 1 } 1).length
      ≤ CONDITION_MAX_LEN :=
  (condition_fragment_length_bound
    { arg_number := 0, operator := SeccompCmpOp.Eq, value := 1 } 1
    (by decide)).1

/-- C7.  `SeccompFilterContext::new` fails with `EmptyRulesVector` exactly
when some syscall's rule vector is empty; `add_rules` with an empty rules
vector fails with `EmptyRulesVector` leaving the context unchanged, and
with a non-empty vector it succeeds. -/
theorem empty_rules_rejection (rules : List (Int × Int × List SeccompRule))
    (d : SeccompAction) (ctx : SeccompFilterContext) (n : Int)
    (p : Option Int) (rs : List SeccompRule) :
    ((∃ e ∈ rules, e.2.2 = []) →
      SeccompFilterContext.new rules d =
        Except.error Error.EmptyRulesVector) ∧
    ((∀ e ∈ rules, e.2.2 ≠ []) →
      SeccompFilterContext.new rules d =
        Except.ok { rules := rules, default_action := d }) ∧
    (SeccompFilterContext.add_rules ctx n p [] =
      (Except.error Error.EmptyRulesVector, ctx)) ∧
    (rs ≠ [] → (SeccompFilterContext.add_rules ctx n p rs).1 =
      Except.ok ()) := by
  refine ⟨?_, ?_, ?_, ?_⟩
  · rintro ⟨e, he, hee⟩
    rw [SeccompFilterContext.new, if_pos]
    rw [List.any_eq_true]
    refine ⟨e, he, ?_⟩
    simp [hee]
  · intro h
    rw [SeccompFilterContext.new, if_neg]
    rw [List.any_eq_true]
    rintro ⟨e, he, hee⟩
    simp only [beq_iff_eq, List.length_eq_zero] at hee
    exact h e he hee
  · rw [SeccompFilterContext.add_rules]
    simp
  · intro h
    rw [SeccompFilterContext.add_rules]
    rw [if_neg]
    simp only [beq_iff_eq, List.length_eq_zero]
    exact h

/-- C7 witness: a map with an empty chain is rejected, and `add_rules`
with an empty vector fails while returning the context unchanged. -/
theorem empty_rules_rejection_witness :
    SeccompFilterContext.new [(1, 0, ([] : List SeccompRule))]
        SeccompAction.Trap = Except.error Error.EmptyRulesVector ∧
    SeccompFilterContext.add_rules exCtx 7 none [] =
      (Except.error Error.EmptyRulesVector, exCtx) :=
  ⟨(empty_rules_rejection [(1, 0, [])] SeccompAction.Trap exCtx 7 none []).1
      ⟨(1, 0, []), by simp, rfl⟩,
   (empty_rules_rejection [(1, 0, [])] SeccompAction.Trap exCtx 7 none []).2.2.1⟩

/-- C8.  At the Basic level, the filter program is exactly the
three-instruction architecture prologue (load `arch` at byte offset 4,
branch-equal against the x86-64 audit id `0xC000003E` skipping one,
return kill), the syscall-number load from byte offset 0, one
(branch-equal / return allow) pair per allow-list entry in list order, and
a final return trap. -/
theorem basic_level_program (allowed_syscalls : List Int) :
    setup_seccomp (SeccompLevel.Basic allowed_syscalls) =
      Except.ok (some
        ([BPF_STMT (BPF_LD + BPF_W + BPF_ABS) 4,
          BPF_JUMP (BPF_JMP + BPF_JEQ + BPF_K) 0xC000003E 1 0,
          BPF_STMT (BPF_RET + BPF_K) 0,
          BPF_STMT (BPF_LD + BPF_W + BPF_ABS) 0]
         ++ allowed_syscalls.flatMap (fun syscall_number =>
             [BPF_JUMP (BPF_JMP + BPF_JEQ + BPF_K)
                (i64_as_u32 syscall_number) 0 1,
              BPF_STMT (BPF_RET + BPF_K) 0x7fff0000])
         ++ [BPF_STMT (BPF_RET + BPF_K) 0x00030000])) := by
  show Except.ok (some (VALIDATE_ARCHITECTURE ++ EXAMINE_SYSCALL
    ++ allowed_syscalls.flatMap ALLOW_SYSCALL ++ SIGNAL_PROCESS)) = _
  rw [VALIDATE_ARCHITECTURE, EXAMINE_SYSCALL, SIGNAL_PROCESS]
  have haudit : AUDIT_ARCH_X86_64 = 0xC000003E := by decide
  have hkill : SECCOMP_RET_KILL = 0 := rfl
  have htrap : SECCOMP_RET_TRAP = 0x00030000 := rfl
  have hallow : ALLOW_SYSCALL = fun syscall_number =>
      [BPF_JUMP (BPF_JMP + BPF_JEQ + BPF_K) (i64_as_u32 syscall_number) 0 1,
       BPF_STMT (BPF_RET + BPF_K) 0x7fff0000] := by
    funext syscall_number
    rw [ALLOW_SYSCALL]
    rfl
  rw [haudit, hkill, htrap, hallow]
  simp

/-- C9.  The jailer error `Display` produces the documented literal
strings for `Canonicalize("/foo", ENOENT)`, `UnexpectedKvmFd(42)` and
`MissingArgument("id")`. -/
theorem jailer_error_display_strings :
    (Jailer.Error.Canonicalize "/foo" Jailer.ENOENT).display =
      "Failed to canonicalize path /foo: No such file or directory (os error 2)" ∧
    (Jailer.Error.UnexpectedKvmFd 42).display =
      "Unexpected value for the /dev/kvm fd: 42" ∧
    (Jailer.Error.MissingArgument "id").display = "Missing argument: id" := by
  refine ⟨by decide, by decide, by decide⟩

/-- C10.  When compiling the advanced-level filter context fails — for any
compiler error — `setup_seccomp` reports `Load(EINVAL)`; the compiler's
own error kinds never escape the installer. -/
theorem advanced_level_error_masking (ctx : SeccompFilterContext) (e : Error)
    (h : ctx.into_bpf = Except.error e) :
    setup_seccomp (SeccompLevel.Advanced ctx) =
      Except.error (Error.Load EINVAL) := by
  show (match ctx.into_bpf with
    | .error _ => Except.error (Error.Load EINVAL)
    | .ok prog => Except.ok (some (VALIDATE_ARCHITECTURE ++ prog))) = _
  rw [h]

/-- C10 witness: the oversized context compiles to `ContextTooLarge`, and
the installer reports it as `Load(EINVAL)`. -/
theorem advanced_level_error_masking_witness :
    setup_seccomp (SeccompLevel.Advanced exCtxTooLarge) =
      Except.error (Error.Load EINVAL) :=
  advanced_level_error_masking exCtxTooLarge Error.ContextTooLarge
    exCtxTooLarge_into_bpf

end Seccomp
